import Mathlib

/-!
Shallow embedding of the Snake game core (`src/snake.py`) and verification of
the frozen claims about its specification.

Conventions of the embedding:
* Python `float` quantities (timestamps, tick rates, accumulators, random
  rolls) are modelled as `ℚ`.
* Python `int` is modelled as `ℤ`; Python's floor division `//` is `Int.fdiv`
  and Python's `%` on a positive modulus is `Int.emod` (both agree with
  Python's semantics).
* `random.random()`, `random.choice(free)` and `time.time()` are modelled as
  explicit inputs: a rational roll, an index into the free-cell list (taken
  modulo its length, which covers every possible choice), and a rational
  timestamp.
* Rendering, audio and file persistence are external collaborators in the
  spec and are not part of the simulation state.
-/

/- The Batteries rational-number operations are `@[irreducible]` by default,
which blocks `decide` on closed rational facts in the elaborator (the kernel
unfolds them regardless).  Restore default reducibility so that concrete
game states evaluate. -/
set_option allowUnsafeReducibility true in
attribute [semireducible] Rat.add Rat.sub Rat.mul Rat.inv Rat.ofScientific

namespace SnakeGame

/-- A grid coordinate, as in the source's `Vec2 = Tuple[int, int]`. -/
abbrev Vec2 := Int × Int

/-- `WIDTH` from the source configuration block. -/
def WIDTH : Int := 640

/-- `HEIGHT` from the source configuration block. -/
def HEIGHT : Int := 480

/-- `CELL` from the source configuration block. -/
def CELL : Int := 20

/-- `GRID_W = WIDTH // CELL` (= 32). -/
def GRID_W : Int := WIDTH / CELL

/-- `GRID_H = HEIGHT // CELL` (= 24). -/
def GRID_H : Int := HEIGHT / CELL

/-- `GOLD_CHANCE = 1 / 12.0`. -/
def GOLD_CHANCE : ℚ := 1 / 12

/-- `GOLD_LIFETIME = 7.0` seconds. -/
def GOLD_LIFETIME : ℚ := 7

/-- `SCORE_NORMAL = 10`. -/
def SCORE_NORMAL : Int := 10

/-- `SCORE_GOLD = 30`. -/
def SCORE_GOLD : Int := 30

/-- `BASE_FPS` dictionary from the source. -/
def BASE_FPS (mode : String) : ℚ :=
  if mode = "easy" then 8 else if mode = "normal" then 10 else if mode = "hard" then 12 else 0

/-- `MAX_FPS_CAP` dictionary from the source. -/
def MAX_FPS_CAP (mode : String) : ℚ :=
  if mode = "easy" then 20 else if mode = "normal" then 24 else if mode = "hard" then 28 else 0

/-- `SPEED_STEP_EVERY_SCORE = 5`. -/
def SPEED_STEP_EVERY_SCORE : Int := 5

/-- `SPEED_INCREMENT = 0.5`. -/
def SPEED_INCREMENT : ℚ := 1 / 2

/-- `clamp(n, lo, hi) = max(lo, min(hi, n))` from the source utilities. -/
def clamp (n lo hi : ℚ) : ℚ := max lo (min hi n)

/-- `key_for_record(mode, wrap_on) = f"{mode}_{'on' if wrap_on else 'off'}"`. -/
def key_for_record (mode : String) (wrap_on : Bool) : String :=
  mode ++ "_" ++ (if wrap_on then "on" else "off")

/-- Direction `UP = (0, -1)` from the `DIRS` table. -/
def UP : Vec2 := (0, -1)

/-- Direction `DOWN = (0, 1)` from the `DIRS` table. -/
def DOWN : Vec2 := (0, 1)

/-- Direction `LEFT = (-1, 0)` from the `DIRS` table. -/
def LEFT : Vec2 := (-1, 0)

/-- Direction `RIGHT = (1, 0)` from the `DIRS` table. -/
def RIGHT : Vec2 := (1, 0)

/-- `opposite(a, b) = (a[0] == -b[0] and a[1] == -b[1])`. -/
def opposite (a b : Vec2) : Bool := a.1 = -b.1 ∧ a.2 = -b.2

/-- The snake: a deque of grid segments (head first) plus the current
direction, as in the source's `Snake` class.  A Python `deque` with
`appendleft`/`pop` maps to a Lean `List` with `cons`/`dropLast`. -/
structure Snake where
  body : List Vec2
  dir : Vec2
deriving DecidableEq

/-- `Snake.__init__`: `for i in range(length): body.appendleft((start[0] - i, start[1]))`.
`appendleft` puts the largest `i` at index 0, so the resulting deque is
`[(start - (length-1)), ..., (start - 1), start]`. -/
def Snake.init (start : Vec2) (length : Nat) (direction : Vec2) : Snake :=
  { body := (List.range length).reverse.map (fun i => (start.1 - (i : Int), start.2)),
    dir := direction }

/-- `Snake.head`: `body[0]`.  The body is never empty in any state the
program builds (length ≥ 3 at creation, never shrinking below it). -/
def Snake.head (s : Snake) : Vec2 := s.body.headD (0, 0)

/-- `Snake.turn(newdir)`: ignore an exact 180° reversal, otherwise set `dir`. -/
def Snake.turn (s : Snake) (newdir : Vec2) : Snake :=
  if opposite s.dir newdir then s else { s with dir := newdir }

/-- `Snake.next_head()`: head plus direction delta (no wrapping, no bounds). -/
def Snake.next_head (s : Snake) : Vec2 := (s.head.1 + s.dir.1, s.head.2 + s.dir.2)

/-- `Snake.move(grow)`: `appendleft(next_head())`; if not growing, `pop()`
the tail.  Note the source recomputes `next_head()` here — it does not take
the (possibly wrapped) coordinates computed by the caller. -/
def Snake.move (s : Snake) (grow : Bool) : Snake :=
  let b := s.next_head :: s.body
  { s with body := if grow then b else b.dropLast }

/-- `Snake.hits_self()`: head appears among `body[1:]`. -/
def Snake.hits_self (s : Snake) : Bool := s.body.tail.contains s.head

/-- `Snake.occupies()`: the set of covered cells (modelled as the body list;
only membership is ever used). -/
def Snake.occupies (s : Snake) : List Vec2 := s.body

/-- The `Food` dataclass: position, kind (`"normal"` or `"gold"`) and the
gold spawn timestamp. -/
structure Food where
  pos : Vec2
  kind : String
  spawn_time : ℚ
deriving DecidableEq

/-- Inputs consumed by one `spawn_food` call: the index of the uniformly
chosen free cell and the `random.random()` roll for the gold trial. -/
structure SpawnRng where
  choiceIdx : Nat
  goldRoll : ℚ
deriving DecidableEq

/-- Inputs consumed by one `step_logic` call: `time.time()`, the
`random.random()` roll taken after eating normal food, and the rng for the
(up to two) `spawn_food` calls. -/
structure TickIn where
  now : ℚ
  eatRoll : ℚ
  r1 : SpawnRng
  r2 : SpawnRng
deriving DecidableEq

/-- The `Game` simulation state: exactly the fields of the source's `Game`
object that belong to the simulation core (rendering, audio and the pygame
handles are external collaborators). -/
structure Game where
  mode : String
  wrap_on : Bool
  state : String
  snake : Snake
  score : Int
  current_fps : ℚ
  logic_acc : ℚ
  game_over_reason : String
  food : Option Food
  best : Int
  records : String → Option Int

/-- The grid cells in the order the source's `spawn_food` enumerates them:
`[(x, y) for x in range(GRID_W) for y in range(GRID_H)]`. -/
def gridCells : List Vec2 :=
  (List.range GRID_W.toNat).flatMap
    (fun x => (List.range GRID_H.toNat).map (fun y => ((x : Int), (y : Int))))

/-- The free cells computed inside `spawn_food`: grid cells not occupied by
the snake. -/
def Game.freeCells (g : Game) : List Vec2 :=
  gridCells.filter (fun c => decide (c ∉ g.snake.occupies))

/-- `Game.spawn_food(force_normal)`: pick a uniformly random free cell (the
choice is modelled by an arbitrary index taken modulo the list length); the
new food is gold exactly when `force_normal` is false, the gold roll
succeeds, and `self.food is None`; otherwise normal.  A full board leaves
the state unchanged. -/
def Game.spawn_food (g : Game) (force_normal : Bool) (rng : SpawnRng) (now : ℚ) : Game :=
  let free := g.freeCells
  if free.isEmpty then g
  else
    let pos := free.getD (rng.choiceIdx % free.length) (0, 0)
    if force_normal = false ∧ rng.goldRoll < GOLD_CHANCE ∧ g.food = none then
      { g with food := some ⟨pos, "gold", now⟩ }
    else
      { g with food := some ⟨pos, "normal", 0⟩ }

/-- `Game.reset_run`: fresh snake at the grid centre, zero score, base tick
rate, cleared accumulator and reason, food force-spawned normal, and `best`
reloaded from the records table for the active `(mode, wrap)` key. -/
def Game.reset_run (g : Game) (rng : SpawnRng) : Game :=
  let g' : Game :=
    { g with
      snake := Snake.init (GRID_W / 2, GRID_H / 2) 3 RIGHT,
      score := 0,
      current_fps := BASE_FPS g.mode,
      logic_acc := 0,
      game_over_reason := "",
      food := none }
  let g'' := g'.spawn_food true rng 0
  { g'' with best := (g.records (key_for_record g.mode g.wrap_on)).getD 0 }

/-- `Game.to_game_over`: transition to the `"gameover"` state (the sound and
persistence side effects live in external collaborators). -/
def Game.to_game_over (g : Game) : Game := { g with state := "gameover" }

/-- The eating test of `step_logic` (lines 544–553): the food is eaten iff
it sits at the (possibly wrapped) next-head cell `n`; the recorded kind is
`"gold"` iff the food's kind is `"gold"`, else `"normal"`. -/
def Game.eat_check (g : Game) (n : Vec2) : Option String :=
  match g.food with
  | some f => if n = f.pos then (if f.kind = "gold" then some "gold" else some "normal") else none
  | none => none

/-- The derived tick rate assigned at the end of `step_logic` (lines
590–593): `clamp(BASE_FPS[mode] + (score // 5) * 0.5, BASE_FPS[mode],
MAX_FPS_CAP[mode])`. -/
def tickRate (mode : String) (score : Int) : ℚ :=
  clamp (BASE_FPS mode + ((Int.fdiv score SPEED_STEP_EVERY_SCORE : Int) : ℚ) * SPEED_INCREMENT)
    (BASE_FPS mode) (MAX_FPS_CAP mode)

/-- The food bookkeeping of `step_logic` after the move (lines 567–588):
after eating normal food, roll for gold and non-force-spawn (falling back to
a forced normal spawn when the result is not gold); otherwise force-spawn
normal; when nothing was eaten, replace an expired gold food by a forced
normal spawn. -/
def Game.food_update (g : Game) (i : TickIn) (ate_kind : Option String) : Game :=
  if ate_kind.isSome then
    if ate_kind = some "normal" ∧ i.eatRoll < GOLD_CHANCE then
      let ga := g.spawn_food false i.r1 i.now
      match ga.food with
      | some f =>
          if f.kind = "gold" then { ga with food := some { f with spawn_time := i.now } }
          else ga.spawn_food true i.r2 i.now
      | none => ga.spawn_food true i.r2 i.now
    else g.spawn_food true i.r1 i.now
  else
    match g.food with
    | some f =>
        if f.kind = "gold" ∧ i.now - f.spawn_time > GOLD_LIFETIME then g.spawn_food true i.r1 i.now
        else g
    | none => g

/-- The live record update of `step_logic` (lines 595–598): when the score
beats `best`, both `best` and the records entry for the active key are set
to the score. -/
def Game.record_update (g : Game) : Game :=
  if g.score > g.best then
    { g with
      best := g.score,
      records := fun k => if k = key_for_record g.mode g.wrap_on then some g.score else g.records k }
  else g

/-- The snake after the movement phase of one tick (lines 555–559): one
advance with `grow = ateSomething`, plus a second growing advance after a
gold eat. -/
def Game.moved_snake (g : Game) (n : Vec2) : Snake :=
  let ate_kind := g.eat_check n
  let s1 := g.snake.move ate_kind.isSome
  if ate_kind = some "gold" then s1.move true else s1

/-- The score after the eating phase of one tick (lines 544–553). -/
def Game.new_score (g : Game) (n : Vec2) : Int :=
  if g.eat_check n = some "gold" then g.score + SCORE_GOLD
  else if (g.eat_check n).isSome then g.score + SCORE_NORMAL
  else g.score

/-- The body of `step_logic` after the boundary policy, with `n` the
(possibly wrapped) candidate head used for the eating test.  Note that
`Snake.move` recomputes the unwrapped `next_head`, exactly as the source
does. -/
def Game.step_core (g : Game) (i : TickIn) (n : Vec2) : Game :=
  let g1 := { g with snake := g.moved_snake n, score := g.new_score n }
  if (g.moved_snake n).hits_self then ({ g1 with game_over_reason := "self" }).to_game_over
  else
    let g2 := g1.food_update i (g.eat_check n)
    let g3 := { g2 with current_fps := tickRate g2.mode g2.score }
    g3.record_update

/-- `Game.step_logic`: one logic tick — boundary policy (wrap or wall game
over) followed by eating, movement, self-collision, food bookkeeping, speed
and record updates. -/
def Game.step_logic (g : Game) (i : TickIn) : Game :=
  let n := g.snake.next_head
  if g.wrap_on then
    g.step_core i (n.1 % GRID_W, n.2 % GRID_H)
  else if n.1 < 0 ∨ n.1 ≥ GRID_W ∨ n.2 < 0 ∨ n.2 ≥ GRID_H then
    ({ g with game_over_reason := "wall" }).to_game_over
  else
    g.step_core i n

/-- The fixed-timestep drain loop of `play_loop` (lines 426–428):
`while logic_acc >= step: logic_acc -= step; step_logic()`.  The `step`
argument is the value computed once before the loop; `fuel` bounds the
number of iterations (the source loop always terminates because `step` is
positive and fixed, and every statement below instantiates `fuel` above
that bound). -/
def Game.drainAux : Nat → ℚ → Game → List TickIn → Game
  | 0, _, g, _ => g
  | (n + 1), step, g, rngs =>
      if g.logic_acc ≥ step then
        Game.drainAux n step (({ g with logic_acc := g.logic_acc - step }).step_logic
          (rngs.headD ⟨0, 0, ⟨0, 0⟩, ⟨0, 0⟩⟩)) rngs.tail
      else g

/-- The logic-tick part of one `play_loop` frame (lines 423–428):
`logic_acc += dt; step = 1.0 / current_fps; while ...` — the step size is
computed once, from the tick rate at frame entry. -/
def Game.play_frame (g : Game) (dt : ℚ) (rngs : List TickIn) (fuel : Nat) : Game :=
  let g' := { g with logic_acc := g.logic_acc + dt }
  Game.drainAux fuel (1 / g'.current_fps) g' rngs

/-- Modelled from the spec (§4.5): a drain loop that recomputes the step
size `1 / currentTickRate` on every iteration of the while loop, so that a
tick-rate change inside the loop shortens the step used by the remaining
iterations of the same frame.  Used only to compare against the source's
`Game.drainAux`. -/
def Game.drainSpecAux : Nat → Game → List TickIn → Game
  | 0, g, _ => g
  | (n + 1), g, rngs =>
      let step := 1 / g.current_fps
      if g.logic_acc ≥ step then
        Game.drainSpecAux n (({ g with logic_acc := g.logic_acc - step }).step_logic
          (rngs.headD ⟨0, 0, ⟨0, 0⟩, ⟨0, 0⟩⟩)) rngs.tail
      else g

/-- Modelled from the spec (§4.5): the per-frame drain with per-iteration
step recomputation. -/
def Game.play_frame_spec (g : Game) (dt : ℚ) (rngs : List TickIn) (fuel : Nat) : Game :=
  let g' := { g with logic_acc := g.logic_acc + dt }
  Game.drainSpecAux fuel g' rngs

/-- Number of iterations the source's fixed-step drain performs from a given
accumulator value (pure arithmetic companion of `Game.drainAux`). -/
def ticksRun : Nat → ℚ → ℚ → Nat
  | 0, _, _ => 0
  | (n + 1), acc, step => if acc ≥ step then ticksRun n (acc - step) step + 1 else 0

/-- `menu_change_value` on the `"Mode"` row (lines 498–503): cycle through
`["easy", "normal", "hard"]`, reset `current_fps` to the new base rate and
reload `best` for the new key. -/
def Game.menu_change_mode (g : Game) (forward : Bool) : Game :=
  let values := ["easy", "normal", "hard"]
  let idx := values.indexOf g.mode
  let idx' := (if forward then idx + 1 else idx + values.length - 1) % values.length
  let mode' := values.getD idx' "normal"
  { g with
    mode := mode',
    current_fps := BASE_FPS mode',
    best := (g.records (key_for_record mode' g.wrap_on)).getD 0 }

/-- `menu_change_value` on the `"Wrap"` row (lines 504–509): cycle through
`["off", "on"]` (both directions toggle, since the list has two entries) and
reload `best` for the new key. -/
def Game.menu_change_wrap (g : Game) (forward : Bool) : Game :=
  let idx : Nat := if g.wrap_on then 1 else 0
  let idx' := (if forward then idx + 1 else idx + 2 - 1) % 2
  let wrap' : Bool := idx' = 1
  { g with
    wrap_on := wrap',
    best := (g.records (key_for_record g.mode wrap')).getD 0 }

/-- The discrete input/timing events that drive the simulation between
frames: a logic tick, a direction key, the R (restart) key, Escape, the P
(pause) key, and the menu's Start / Mode / Wrap actions. -/
inductive Event where
  | tick (i : TickIn)
  | turnKey (d : Vec2)
  | restartKey (r : SpawnRng)
  | escape
  | pauseKey
  | menuStart (r : SpawnRng)
  | menuMode (forward : Bool)
  | menuWrap (forward : Bool)

/-- One event applied to the game, guarded by the state machine of
`run`/`play_loop`/`pause_loop`/`gameover_loop`/`menu_loop`: ticks and
direction keys act only while playing; R restarts from playing or game
over (the latter also returning to playing); Escape leaves playing/game
over for the menu and resumes from pause; P toggles pause; the menu's
Start/Mode/Wrap act only in the menu. -/
def Game.applyEvent (g : Game) : Event → Game
  | .tick i => if g.state = "playing" then g.step_logic i else g
  | .turnKey d => if g.state = "playing" then { g with snake := g.snake.turn d } else g
  | .restartKey r =>
      if g.state = "playing" then g.reset_run r
      else if g.state = "gameover" then { g.reset_run r with state := "playing" }
      else g
  | .escape =>
      if g.state = "playing" ∨ g.state = "gameover" then { g with state := "menu" }
      else if g.state = "paused" then { g with state := "playing" }
      else g
  | .pauseKey =>
      if g.state = "playing" then { g with state := "paused" }
      else if g.state = "paused" then { g with state := "playing" }
      else g
  | .menuStart r =>
      if g.state = "menu" then { g.reset_run r with state := "playing" } else g
  | .menuMode fwd => if g.state = "menu" then g.menu_change_mode fwd else g
  | .menuWrap fwd => if g.state = "menu" then g.menu_change_wrap fwd else g

/-- `Game.__init__` (composed with `main`): the process starts in the menu
with the CLI-selected mode and wrap flag, the loaded records table, and a
fresh run prepared by `reset_run(full_reset=True)`. -/
def Game.init (mode : String) (wrap_on : Bool) (records : String → Option Int)
    (r : SpawnRng) : Game :=
  let g0 : Game :=
    { mode := mode,
      wrap_on := wrap_on,
      state := "menu",
      snake := Snake.init (GRID_W / 2, GRID_H / 2) 3 RIGHT,
      score := 0,
      current_fps := BASE_FPS mode,
      logic_acc := 0,
      game_over_reason := "",
      food := none,
      best := 0,
      records := records }
  g0.reset_run r

/-- A whole session: fold a list of events over a state. -/
def Game.runEvents (g : Game) : List Event → Game
  | [] => g
  | e :: es => (g.applyEvent e).runEvents es

/-- "The current food, when present, is normal": the invariant behind the
observation that the gold branch of `spawn_food` is unreachable. -/
def foodNormal (g : Game) : Prop := ∀ f : Food, g.food = some f → f.kind = "normal"

/-- The recorded best score for a key, with the source's `.get(key, 0)`
default. -/
def recordsVal (g : Game) (k : String) : Int := (g.records k).getD 0

/-- The invariant connecting the live `best` to the records table: `best`
is at least the stored record for the active `(mode, wrap)` key. -/
def bestInv (g : Game) : Prop :=
  recordsVal g (key_for_record g.mode g.wrap_on) ≤ g.best

/-! Concrete states used by the closed statements below. -/

/-- An empty highscore table. -/
def emptyRecords : String → Option Int := fun _ => none

/-- Wrap mode, snake at the right edge heading right, no food in its path. -/
def wg : Game :=
  { mode := "normal", wrap_on := true, state := "playing",
    snake := { body := [(31, 12), (30, 12), (29, 12)], dir := RIGHT },
    score := 0, current_fps := 10, logic_acc := 0, game_over_reason := "",
    food := none, best := 0, records := emptyRecords }

/-- Tick inputs whose rolls always fail the gold trial. -/
def wi : TickIn := ⟨0, 1, ⟨0, 1⟩, ⟨0, 1⟩⟩

/-- The same edge state with wrap off: the next head `(32, 12)` is out of
bounds. -/
def wg6 : Game := { wg with wrap_on := false }

/-- Wrap off, a gold food directly in front of the snake. -/
def cg2 : Game :=
  { wg with wrap_on := false,
            snake := { body := [(5, 5), (4, 5), (3, 5)], dir := RIGHT },
            food := some ⟨(6, 5), "gold", 0⟩ }

/-- Wrap off, a normal food directly in front of the snake. -/
def cg5 : Game := { cg2 with food := some ⟨(6, 5), "normal", 0⟩ }

/-- Tick inputs for two ticks within one frame. -/
def rngs5 : List TickIn := [⟨0, 1, ⟨0, 1⟩, ⟨0, 1⟩⟩, ⟨0, 1, ⟨0, 1⟩, ⟨0, 1⟩⟩]

/-- A wrap-mode state whose body loops through the out-of-grid cell
`(32, 12)` (body cells outside the grid do arise in wrap mode, because
`Snake.move` stores the unwrapped head).  The wrapped next head `(0, 12)`
carries a normal food, and the unwrapped next head `(32, 12)` is a body
cell, so this tick both eats and self-collides. -/
def cg7 : Game :=
  { wg with
    snake := { body := [(31, 12), (30, 12), (30, 13), (31, 13), (32, 13), (32, 12)],
               dir := RIGHT },
    food := some ⟨(0, 12), "normal", 0⟩ }

/-- A state holding a normal food (so "no gold food exists" yet the food
slot is not empty). -/
def cg4 : Game := { cg2 with food := some ⟨(9, 9), "normal", 0⟩ }

/-- A state with an empty food slot. -/
def cg4b : Game := { cg2 with food := none }

/-! Structural lemmas: which fields each operation can touch. -/

/-- `spawn_food` changes at most the `food` field. -/
lemma Game.spawn_food_shape (g : Game) (b : Bool) (r : SpawnRng) (t : ℚ) :
    ∃ fd : Option Food, g.spawn_food b r t = { g with food := fd } := by
  unfold Game.spawn_food
  dsimp only
  split
  · exact ⟨g.food, rfl⟩
  · split
    · exact ⟨_, rfl⟩
    · exact ⟨_, rfl⟩

/-- `record_update` changes at most `best` and `records`. -/
lemma Game.record_update_shape (g : Game) :
    ∃ (b : Int) (rec : String → Option Int),
      g.record_update = { g with best := b, records := rec } := by
  unfold Game.record_update
  split
  · exact ⟨_, _, rfl⟩
  · exact ⟨g.best, g.records, rfl⟩

/-- The two possible outcomes of `record_update`, with their guards. -/
lemma Game.record_update_cases (g : Game) :
    (g.score > g.best ∧
      g.record_update =
        { g with
          best := g.score,
          records := fun k =>
            if k = key_for_record g.mode g.wrap_on then some g.score else g.records k }) ∨
    (¬ g.score > g.best ∧ g.record_update = g) := by
  unfold Game.record_update
  split
  · exact Or.inl ⟨‹_›, rfl⟩
  · exact Or.inr ⟨‹_›, rfl⟩

/-- `food_update` changes at most the `food` field. -/
lemma Game.food_update_shape (g : Game) (i : TickIn) (k : Option String) :
    ∃ fd : Option Food, g.food_update i k = { g with food := fd } := by
  unfold Game.food_update
  split
  · split
    · obtain ⟨fd1, h1⟩ := Game.spawn_food_shape g false i.r1 i.now
      rw [h1]
      cases fd1 with
      | none =>
          dsimp only
          obtain ⟨fd2, h2⟩ :=
            Game.spawn_food_shape { g with food := none } true i.r2 i.now
          rw [h2]; exact ⟨fd2, rfl⟩
      | some f =>
          dsimp only
          split
          · exact ⟨_, rfl⟩
          · obtain ⟨fd2, h2⟩ :=
              Game.spawn_food_shape { g with food := some f } true i.r2 i.now
            rw [h2]; exact ⟨fd2, rfl⟩
    · obtain ⟨fd1, h1⟩ := Game.spawn_food_shape g true i.r1 i.now
      rw [h1]; exact ⟨fd1, rfl⟩
  · match hg : g.food with
    | some f =>
        dsimp only
        split
        · obtain ⟨fd1, h1⟩ := Game.spawn_food_shape g true i.r1 i.now
          rw [h1]; exact ⟨fd1, rfl⟩
        · exact ⟨g.food, rfl⟩
    | none => exact ⟨g.food, rfl⟩

/-- `reset_run` changes at most snake, score, tick rate, accumulator,
game-over reason, food and best — and sets them as the source does. -/
lemma Game.reset_run_shape (g : Game) (r : SpawnRng) :
    ∃ fd : Option Food,
      g.reset_run r =
        { g with
          snake := Snake.init (GRID_W / 2, GRID_H / 2) 3 RIGHT,
          score := 0,
          current_fps := BASE_FPS g.mode,
          logic_acc := 0,
          game_over_reason := "",
          food := fd,
          best := (g.records (key_for_record g.mode g.wrap_on)).getD 0 } := by
  unfold Game.reset_run
  obtain ⟨fd, h⟩ :=
    Game.spawn_food_shape
      { g with
        snake := Snake.init (GRID_W / 2, GRID_H / 2) 3 RIGHT,
        score := 0,
        current_fps := BASE_FPS g.mode,
        logic_acc := 0,
        game_over_reason := "",
        food := none } true r 0
  dsimp only
  rw [h]
  exact ⟨fd, rfl⟩

/-- When the moved snake bites itself, the tick ends in the self-collision
game over with the state otherwise as after the move. -/
lemma Game.step_core_hits (g : Game) (i : TickIn) (n : Vec2)
    (h : (g.moved_snake n).hits_self = true) :
    g.step_core i n =
      { g with
        snake := g.moved_snake n,
        score := g.new_score n,
        game_over_reason := "self",
        state := "gameover" } := by
  unfold Game.step_core
  dsimp only
  rw [if_pos h]
  rfl

/-- When the moved snake survives, the tick keeps the state label, applies
the speed formula to the new score, and changes beyond that at most the
food, best and records fields. -/
lemma Game.step_core_ok (g : Game) (i : TickIn) (n : Vec2)
    (h : ¬ (g.moved_snake n).hits_self = true) :
    ∃ (fd : Option Food) (b : Int) (rec : String → Option Int),
      g.step_core i n =
        { g with
          snake := g.moved_snake n,
          score := g.new_score n,
          current_fps := tickRate g.mode (g.new_score n),
          food := fd,
          best := b,
          records := rec } := by
  unfold Game.step_core
  dsimp only
  rw [if_neg h]
  obtain ⟨fd, h1⟩ :=
    Game.food_update_shape { g with snake := g.moved_snake n, score := g.new_score n } i
      (g.eat_check n)
  rw [h1]
  obtain ⟨b, rec, h2⟩ :=
    Game.record_update_shape
      { g with
        snake := g.moved_snake n, score := g.new_score n, food := fd,
        current_fps := tickRate g.mode (g.new_score n) }
  rw [h2]
  exact ⟨fd, b, rec, rfl⟩

/-- A logic tick never touches the accumulator (the drain loop owns it). -/
lemma Game.step_logic_acc (g : Game) (i : TickIn) :
    (g.step_logic i).logic_acc = g.logic_acc := by
  unfold Game.step_logic
  dsimp only
  have core : ∀ n, (g.step_core i n).logic_acc = g.logic_acc := by
    intro n
    by_cases h : (g.moved_snake n).hits_self = true
    · rw [Game.step_core_hits g i n h]
    · obtain ⟨fd, b, rec, h2⟩ := Game.step_core_ok g i n h
      rw [h2]
  split
  · exact core _
  · split
    · rfl
    · exact core _

/-- A logic tick never touches the mode, the wrap flag, or the accumulator;
the state can only change to `"gameover"`. -/
lemma Game.step_logic_mode_wrap (g : Game) (i : TickIn) :
    (g.step_logic i).mode = g.mode ∧ (g.step_logic i).wrap_on = g.wrap_on := by
  unfold Game.step_logic
  dsimp only
  have core : ∀ n, (g.step_core i n).mode = g.mode ∧ (g.step_core i n).wrap_on = g.wrap_on := by
    intro n
    by_cases h : (g.moved_snake n).hits_self = true
    · rw [Game.step_core_hits g i n h]; exact ⟨rfl, rfl⟩
    · obtain ⟨fd, b, rec, h2⟩ := Game.step_core_ok g i n h
      rw [h2]; exact ⟨rfl, rfl⟩
  split
  · exact core _
  · split
    · exact ⟨rfl, rfl⟩
    · exact core _

/-- C8: for every snake state, calling the direction-change operation with
the exact opposite of the current direction leaves the snake's direction
(and the whole snake) unchanged: `turn` rejects exact 180° reversals. -/
theorem C8_reverse_turn_rejected (s : Snake) :
    s.turn (-s.dir.1, -s.dir.2) = s := by
  unfold Snake.turn
  rw [if_pos]
  simp [opposite]

/-- C1 (code bug witness): in wrap mode, a snake at `(31, 12)` moving off
the right edge does not reappear at column 0 — after the tick its head is
stored at the out-of-grid cell `(32, 12)`, because `Snake.move` recomputes
the unwrapped `next_head` and the wrapped coordinates computed in
`step_logic` are used only for the food check.  No collision is signalled,
so the body leaves `[0, GRID_W) × [0, GRID_H)`. -/
theorem C1_wrap_head_leaves_grid :
    (wg.step_logic wi).snake.head = ((32 : Int), (12 : Int)) ∧
    ¬ ((wg.step_logic wi).snake.head.1 < GRID_W) ∧
    (wg.step_logic wi).state = "playing" ∧
    (wg.snake.next_head.1 % GRID_W, wg.snake.next_head.2 % GRID_H) = ((0 : Int), (12 : Int)) := by
  decide

/-- C6: with wrap off, a tick whose computed next head lies outside the
grid signals the wall collision, moves the state machine to game over, and
leaves the snake body, the food and the score untouched. -/
theorem C6_wall_collision (g : Game) (i : TickIn)
    (hw : g.wrap_on = false)
    (hob : g.snake.next_head.1 < 0 ∨ g.snake.next_head.1 ≥ GRID_W ∨
           g.snake.next_head.2 < 0 ∨ g.snake.next_head.2 ≥ GRID_H) :
    (g.step_logic i).state = "gameover" ∧
    (g.step_logic i).game_over_reason = "wall" ∧
    (g.step_logic i).snake = g.snake ∧
    (g.step_logic i).food = g.food ∧
    (g.step_logic i).score = g.score := by
  unfold Game.step_logic
  dsimp only
  rw [hw]
  simp only [Bool.false_eq_true, if_false]
  rw [if_pos hob]
  exact ⟨rfl, rfl, rfl, rfl, rfl⟩

/-- C6 witness: the wrap-off edge state `wg6` (head `(31, 12)` moving
right, so the next head `(32, 12)` is out of bounds) triggers exactly the
wall game over. -/
theorem C6_witness :
    (wg6.step_logic wi).state = "gameover" ∧
    (wg6.step_logic wi).game_over_reason = "wall" ∧
    (wg6.step_logic wi).snake = wg6.snake ∧
    (wg6.step_logic wi).food = wg6.food ∧
    (wg6.step_logic wi).score = wg6.score :=
  C6_wall_collision wg6 wi rfl (by decide)

/-- C10: `reset_run` changes only the snake, score, tick rate, logic
accumulator, game-over reason, food and best fields; mode, wrap flag, state
and the records table are untouched, and the new best is the stored record
for the active `(mode, wrap)` key with default 0. -/
theorem C10_reset_run_frame (g : Game) (r : SpawnRng) :
    (g.reset_run r).mode = g.mode ∧
    (g.reset_run r).wrap_on = g.wrap_on ∧
    (g.reset_run r).state = g.state ∧
    (g.reset_run r).records = g.records ∧
    (g.reset_run r).best = (g.records (key_for_record g.mode g.wrap_on)).getD 0 ∧
    (g.reset_run r).score = 0 ∧
    (g.reset_run r).current_fps = BASE_FPS g.mode ∧
    (g.reset_run r).logic_acc = 0 ∧
    (g.reset_run r).game_over_reason = "" ∧
    (g.reset_run r).snake = Snake.init (GRID_W / 2, GRID_H / 2) 3 RIGHT := by
  obtain ⟨fd, h⟩ := Game.reset_run_shape g r
  rw [h]
  exact ⟨rfl, rfl, rfl, rfl, rfl, rfl, rfl, rfl, rfl, rfl⟩

/-- A growing advance prepends the recomputed next head. -/
lemma Snake.move_true_body (s : Snake) : (s.move true).body = s.next_head :: s.body := rfl

/-- A growing advance puts the head one direction step further. -/
lemma Snake.move_true_head (s : Snake) : (s.move true).head = s.next_head := rfl

/-- Advancing does not change the direction. -/
lemma Snake.move_true_dir (s : Snake) : (s.move true).dir = s.dir := rfl

/-- A growing advance lengthens the body by exactly one. -/
lemma Snake.move_true_length (s : Snake) :
    (s.move true).body.length = s.body.length + 1 := by
  rw [Snake.move_true_body, List.length_cons]

/-- The eating test when the candidate head sits on the food. -/
lemma Game.eat_check_eq (g : Game) (f : Food) (hf : g.food = some f) (n : Vec2)
    (hn : n = f.pos) :
    g.eat_check n = some (if f.kind = "gold" then "gold" else "normal") := by
  unfold Game.eat_check
  rw [hf]
  dsimp only
  rw [if_pos hn]
  split <;> rfl

/-- Whatever else a tick does, the resulting snake and score are the moved
snake and the post-eating score. -/
lemma Game.step_core_snake_score (g : Game) (i : TickIn) (n : Vec2) :
    (g.step_core i n).snake = g.moved_snake n ∧ (g.step_core i n).score = g.new_score n := by
  by_cases h : (g.moved_snake n).hits_self = true
  · rw [Game.step_core_hits g i n h]; exact ⟨rfl, rfl⟩
  · obtain ⟨fd, b, rec, h2⟩ := Game.step_core_ok g i n h
    rw [h2]; exact ⟨rfl, rfl⟩

/-- C2 (amended): on a tick that eats, a Gold food adds exactly 2 to the
length and 30 to the score while the head advances TWO cells (the source
advances the snake a second time for gold); a non-gold food adds exactly 1
to the length and 10 to the score with a one-cell head advance.  The
hypotheses say: the food sits at the (wrapped when wrap is on) candidate
head, and the tick is not a wall game over. -/
theorem C2_eat_effects (g : Game) (i : TickIn) (f : Food)
    (hf : g.food = some f)
    (hpos : (if g.wrap_on = true then
              (g.snake.next_head.1 % GRID_W, g.snake.next_head.2 % GRID_H)
             else g.snake.next_head) = f.pos)
    (hin : g.wrap_on = true ∨
           ¬ (g.snake.next_head.1 < 0 ∨ g.snake.next_head.1 ≥ GRID_W ∨
              g.snake.next_head.2 < 0 ∨ g.snake.next_head.2 ≥ GRID_H)) :
    (f.kind = "gold" →
      (g.step_logic i).score = g.score + SCORE_GOLD ∧
      (g.step_logic i).snake.body.length = g.snake.body.length + 2 ∧
      (g.step_logic i).snake.head =
        (g.snake.head.1 + 2 * g.snake.dir.1, g.snake.head.2 + 2 * g.snake.dir.2)) ∧
    (f.kind ≠ "gold" →
      (g.step_logic i).score = g.score + SCORE_NORMAL ∧
      (g.step_logic i).snake.body.length = g.snake.body.length + 1 ∧
      (g.step_logic i).snake.head =
        (g.snake.head.1 + g.snake.dir.1, g.snake.head.2 + g.snake.dir.2)) := by
  have hcore : ∀ n, n = f.pos →
      (f.kind = "gold" →
        (g.step_core i n).score = g.score + SCORE_GOLD ∧
        (g.step_core i n).snake.body.length = g.snake.body.length + 2 ∧
        (g.step_core i n).snake.head =
          (g.snake.head.1 + 2 * g.snake.dir.1, g.snake.head.2 + 2 * g.snake.dir.2)) ∧
      (f.kind ≠ "gold" →
        (g.step_core i n).score = g.score + SCORE_NORMAL ∧
        (g.step_core i n).snake.body.length = g.snake.body.length + 1 ∧
        (g.step_core i n).snake.head =
          (g.snake.head.1 + g.snake.dir.1, g.snake.head.2 + g.snake.dir.2)) := by
    intro n hn
    have hec := Game.eat_check_eq g f hf n hn
    obtain ⟨hsn, hsc⟩ := Game.step_core_snake_score g i n
    constructor
    · intro hk
      rw [hk] at hec
      simp only [if_pos rfl] at hec
      have hmoved : g.moved_snake n = (g.snake.move true).move true := by
        unfold Game.moved_snake
        rw [hec]
        rfl
      refine ⟨?_, ?_, ?_⟩
      · rw [hsc]; unfold Game.new_score; rw [hec]; rfl
      · rw [hsn, hmoved, Snake.move_true_length, Snake.move_true_length]
      · rw [hsn, hmoved, Snake.move_true_head]
        show ((g.snake.move true).head.1 + (g.snake.move true).dir.1,
              (g.snake.move true).head.2 + (g.snake.move true).dir.2) = _
        rw [Snake.move_true_head, Snake.move_true_dir]
        show (g.snake.head.1 + g.snake.dir.1 + g.snake.dir.1,
              g.snake.head.2 + g.snake.dir.2 + g.snake.dir.2) = _
        rw [Prod.mk.injEq]
        exact ⟨by ring, by ring⟩
    · intro hk
      rw [if_neg hk] at hec
      have hmoved : g.moved_snake n = g.snake.move true := by
        unfold Game.moved_snake
        rw [hec]
        rfl
      refine ⟨?_, ?_, ?_⟩
      · rw [hsc]; unfold Game.new_score; rw [hec]; rfl
      · rw [hsn, hmoved, Snake.move_true_length]
      · rw [hsn, hmoved, Snake.move_true_head]; rfl
  unfold Game.step_logic
  dsimp only
  rcases hw : g.wrap_on with _ | _
  · rw [hw] at hpos hin
    simp only [Bool.false_eq_true, if_false] at hpos ⊢
    rcases hin with hin | hin
    · exact absurd hin (by simp)
    · rw [if_neg hin]
      exact hcore _ hpos
  · rw [hw] at hpos
    simp only [if_pos rfl] at hpos ⊢
    exact hcore _ hpos

/-- C2 witness: eating the normal food in front of the snake in `cg5` adds
10 points, one body cell, and moves the head one cell right. -/
theorem C2_witness :
    (cg5.step_logic wi).score = cg5.score + SCORE_NORMAL ∧
    (cg5.step_logic wi).snake.body.length = cg5.snake.body.length + 1 ∧
    (cg5.step_logic wi).snake.head =
      (cg5.snake.head.1 + cg5.snake.dir.1, cg5.snake.head.2 + cg5.snake.dir.2) :=
  (C2_eat_effects cg5 wi ⟨(6, 5), "normal", 0⟩ rfl (by decide) (Or.inr (by decide))).2
    (by decide)

/-- C2 counterexample to the claim as stated: eating the gold food in
`cg2` does add 2 cells and 30 points, but the net head displacement of the
tick is TWO cells — the head jumps from `(5, 5)` to `(7, 5)`, not to the
one-cell-away `(6, 5)`. -/
theorem C2_counterexample :
    cg2.food = some ⟨(6, 5), "gold", 0⟩ ∧
    (cg2.step_logic wi).score = cg2.score + 30 ∧
    (cg2.step_logic wi).snake.body.length = cg2.snake.body.length + 2 ∧
    cg2.snake.head = ((5 : Int), (5 : Int)) ∧
    (cg2.step_logic wi).snake.head = ((7 : Int), (5 : Int)) ∧
    ((7 : Int), (5 : Int)) ≠
      (cg2.snake.head.1 + cg2.snake.dir.1, cg2.snake.head.2 + cg2.snake.dir.2) := by
  decide

/-- C4 (amended): when the free-cell list is non-empty, `spawn_food`
produces a Gold food (with `spawn_time` = now) exactly when `force_normal`
is false, the Bernoulli roll beats `GOLD_CHANCE`, and the food slot is
EMPTY (`self.food is None` — a present Normal food also blocks gold); in
every other case it produces a Normal food. -/
theorem C4_spawn_kind (g : Game) (fn : Bool) (r : SpawnRng) (t : ℚ)
    (hfree : g.freeCells ≠ []) :
    (g.spawn_food fn r t).food =
      some (if fn = false ∧ r.goldRoll < GOLD_CHANCE ∧ g.food = none then
              ⟨g.freeCells.getD (r.choiceIdx % g.freeCells.length) (0, 0), "gold", t⟩
            else
              ⟨g.freeCells.getD (r.choiceIdx % g.freeCells.length) (0, 0), "normal", 0⟩) := by
  unfold Game.spawn_food
  dsimp only
  rw [if_neg (by simpa [List.isEmpty_iff] using hfree)]
  split
  · rfl
  · rfl

set_option maxRecDepth 40000 in
/-- C4 witness: with an empty food slot, `force_normal = false` and a
successful roll, the spawned food is gold and timestamped with now. -/
theorem C4_witness :
    (cg4b.spawn_food false ⟨0, 0⟩ 5).food = some ⟨((0 : Int), (0 : Int)), "gold", 5⟩ := by
  have h := C4_spawn_kind cg4b false ⟨0, 0⟩ 5 (by decide)
  rw [if_pos (by decide)] at h
  rw [h]
  decide

set_option maxRecDepth 40000 in
/-- C4 counterexample to the claim as stated: in `cg4` no GOLD food exists
(the slot holds a NORMAL food), `forceNormal` is false, the roll 0 succeeds
and free cells exist, yet the spawned food is Normal — the code requires
the slot to be empty, not merely gold-free. -/
theorem C4_counterexample :
    cg4.food.map Food.kind = some "normal" ∧
    (0 : ℚ) < GOLD_CHANCE ∧
    cg4.freeCells ≠ [] ∧
    (cg4.spawn_food false ⟨0, 0⟩ 5).food.map Food.kind = some "normal" := by
  decide

/-- In wrap mode a tick is the core step at the wrapped candidate head. -/
lemma Game.step_logic_wrap_eq (g : Game) (i : TickIn) (hw : g.wrap_on = true) :
    g.step_logic i =
      g.step_core i (g.snake.next_head.1 % GRID_W, g.snake.next_head.2 % GRID_H) := by
  unfold Game.step_logic
  dsimp only
  rw [hw, if_pos rfl]

/-- Without wrap, an in-bounds tick is the core step at the raw next head. -/
lemma Game.step_logic_nowrap_eq (g : Game) (i : TickIn) (hw : g.wrap_on = false)
    (hin : ¬ (g.snake.next_head.1 < 0 ∨ g.snake.next_head.1 ≥ GRID_W ∨
              g.snake.next_head.2 < 0 ∨ g.snake.next_head.2 ≥ GRID_H)) :
    g.step_logic i = g.step_core i g.snake.next_head := by
  unfold Game.step_logic
  dsimp only
  rw [hw]
  simp only [Bool.false_eq_true, if_false]
  rw [if_neg hin]

/-- Without wrap, an out-of-bounds tick is exactly the wall game over. -/
lemma Game.step_logic_wall_eq (g : Game) (i : TickIn) (hw : g.wrap_on = false)
    (hob : g.snake.next_head.1 < 0 ∨ g.snake.next_head.1 ≥ GRID_W ∨
           g.snake.next_head.2 < 0 ∨ g.snake.next_head.2 ≥ GRID_H) :
    g.step_logic i = { g with game_over_reason := "wall", state := "gameover" } := by
  unfold Game.step_logic
  dsimp only
  rw [hw]
  simp only [Bool.false_eq_true, if_false]
  rw [if_pos hob]
  rfl

/-- C7 (amended): (1) every tick that does not end in game over leaves
`current_fps = clamp(base + (score // 5) * 0.5, base, cap)` evaluated at the
post-tick score; (2) a tick that ends the run leaves `current_fps`
unchanged (the speed line is skipped after a collision, which is why the
claim's "after every tick" needs the game-over proviso); (3) the tick-rate
formula is monotone non-decreasing in the score; and (4) it always lies
within `[baseRate, ceilingRate]` of the active mode. -/
theorem C7_speed_policy :
    (∀ (g : Game) (i : TickIn), (g.step_logic i).state ≠ "gameover" →
      (g.step_logic i).current_fps = tickRate g.mode ((g.step_logic i).score)) ∧
    (∀ (g : Game) (i : TickIn), g.state ≠ "gameover" → (g.step_logic i).state = "gameover" →
      (g.step_logic i).current_fps = g.current_fps) ∧
    (∀ (m : String) (s₁ s₂ : Int), s₁ ≤ s₂ → tickRate m s₁ ≤ tickRate m s₂) ∧
    (∀ (m : String) (s : Int), BASE_FPS m ≤ tickRate m s ∧ tickRate m s ≤ MAX_FPS_CAP m) := by
  have core_fps : ∀ (g : Game) (i : TickIn) (n : Vec2), (g.step_core i n).state ≠ "gameover" →
      (g.step_core i n).current_fps = tickRate g.mode ((g.step_core i n).score) := by
    intro g i n hns
    by_cases h : (g.moved_snake n).hits_self = true
    · rw [Game.step_core_hits g i n h] at hns
      exact absurd rfl hns
    · obtain ⟨fd, b, rec, heq⟩ := Game.step_core_ok g i n h
      rw [heq]
  have core_stale : ∀ (g : Game) (i : TickIn) (n : Vec2), g.state ≠ "gameover" →
      (g.step_core i n).state = "gameover" → (g.step_core i n).current_fps = g.current_fps := by
    intro g i n hst hgo
    by_cases h : (g.moved_snake n).hits_self = true
    · rw [Game.step_core_hits g i n h]
    · obtain ⟨fd, b, rec, heq⟩ := Game.step_core_ok g i n h
      rw [heq] at hgo
      exact absurd hgo hst
  refine ⟨?_, ?_, ?_, ?_⟩
  · intro g i hns
    by_cases hw : g.wrap_on = true
    · rw [Game.step_logic_wrap_eq g i hw] at hns ⊢
      exact core_fps g i _ hns
    · have hw' : g.wrap_on = false := by simpa using hw
      by_cases hin : (g.snake.next_head.1 < 0 ∨ g.snake.next_head.1 ≥ GRID_W ∨
                      g.snake.next_head.2 < 0 ∨ g.snake.next_head.2 ≥ GRID_H)
      · rw [Game.step_logic_wall_eq g i hw' hin] at hns
        exact absurd rfl hns
      · rw [Game.step_logic_nowrap_eq g i hw' hin] at hns ⊢
        exact core_fps g i _ hns
  · intro g i hst hgo
    by_cases hw : g.wrap_on = true
    · rw [Game.step_logic_wrap_eq g i hw] at hgo ⊢
      exact core_stale g i _ hst hgo
    · have hw' : g.wrap_on = false := by simpa using hw
      by_cases hin : (g.snake.next_head.1 < 0 ∨ g.snake.next_head.1 ≥ GRID_W ∨
                      g.snake.next_head.2 < 0 ∨ g.snake.next_head.2 ≥ GRID_H)
      · rw [Game.step_logic_wall_eq g i hw' hin]
      · rw [Game.step_logic_nowrap_eq g i hw' hin] at hgo ⊢
        exact core_stale g i _ hst hgo
  · intro m s₁ s₂ h
    unfold tickRate clamp
    have hd : Int.fdiv s₁ SPEED_STEP_EVERY_SCORE ≤ Int.fdiv s₂ SPEED_STEP_EVERY_SCORE := by
      unfold SPEED_STEP_EVERY_SCORE
      rw [Int.fdiv_eq_ediv _ (by norm_num), Int.fdiv_eq_ediv _ (by norm_num)]
      exact Int.ediv_le_ediv (by norm_num) h
    have hq : ((Int.fdiv s₁ SPEED_STEP_EVERY_SCORE : Int) : ℚ) * SPEED_INCREMENT ≤
        ((Int.fdiv s₂ SPEED_STEP_EVERY_SCORE : Int) : ℚ) * SPEED_INCREMENT := by
      apply mul_le_mul_of_nonneg_right _ (by norm_num [SPEED_INCREMENT])
      exact_mod_cast hd
    exact max_le_max le_rfl (min_le_min le_rfl (add_le_add_left hq _))
  · intro m s
    unfold tickRate clamp
    refine ⟨le_max_left _ _, max_le ?_ (min_le_left _ _)⟩
    unfold BASE_FPS MAX_FPS_CAP
    split_ifs <;> norm_num

/-- C7 witness: concrete instances of all four parts — a surviving wrap
tick obeys the formula, a wall tick keeps the rate, and the formula is
monotone and bounded at sample scores. -/
theorem C7_witness :
    (wg.step_logic wi).current_fps = tickRate wg.mode ((wg.step_logic wi).score) ∧
    (wg6.step_logic wi).current_fps = wg6.current_fps ∧
    tickRate "normal" 3 ≤ tickRate "normal" 8 ∧
    (BASE_FPS "easy" ≤ tickRate "easy" 100 ∧ tickRate "easy" 100 ≤ MAX_FPS_CAP "easy") :=
  ⟨C7_speed_policy.1 wg wi (by decide),
   C7_speed_policy.2.1 wg6 wi (by decide) (by decide),
   C7_speed_policy.2.2.1 "normal" 3 8 (by decide),
   C7_speed_policy.2.2.2 "easy" 100⟩

set_option maxRecDepth 100000 in
/-- C7 counterexample to the claim as stated: from the mid-run wrap state
`cg7` the tick eats a normal food (score 0 → 10) and then self-collides, so
the speed line is skipped: after the tick `current_fps` is still 10 while
`clamp(base + (10 // 5) * 0.5, base, cap) = 11` — "after every tick" fails
on collision ticks whose eat changed the score. -/
theorem C7_counterexample :
    cg7.state = "playing" ∧
    (cg7.step_logic wi).state = "gameover" ∧
    (cg7.step_logic wi).game_over_reason = "self" ∧
    (cg7.step_logic wi).score = 10 ∧
    (cg7.step_logic wi).current_fps = 10 ∧
    tickRate (cg7.step_logic wi).mode ((cg7.step_logic wi).score) = 11 ∧
    (cg7.step_logic wi).current_fps ≠
      tickRate (cg7.step_logic wi).mode ((cg7.step_logic wi).score) := by
  decide

/-- The accumulator after the source's drain loop: the entry accumulator
minus `ticksRun` copies of the entry step — every iteration subtracts the
SAME step, whatever the ticks do to `current_fps`. -/
lemma Game.drainAux_acc (fuel : Nat) : ∀ (step : ℚ) (g : Game) (rngs : List TickIn),
    (Game.drainAux fuel step g rngs).logic_acc =
      g.logic_acc - (ticksRun fuel g.logic_acc step : ℚ) * step := by
  induction fuel with
  | zero =>
      intro step g rngs
      unfold Game.drainAux ticksRun
      simp
  | succ n ih =>
      intro step g rngs
      unfold Game.drainAux ticksRun
      split
      · rw [ih, Game.step_logic_acc]
        push_cast
        ring
      · push_cast
        ring

/-- C5 (amended): the drain loop of `play_loop` computes the step size
`1 / currentTickRate` ONCE per frame, before the loop: after the frame the
accumulator equals the entry accumulator plus `dt` minus a whole number of
copies of the frame-entry step `1 / current_fps`, regardless of any
tick-rate change produced by the ticks inside the loop.  A speed-up
therefore takes effect only at the next frame. -/
theorem C5_step_fixed_per_frame (g : Game) (dt : ℚ) (rngs : List TickIn) (fuel : Nat) :
    (g.play_frame dt rngs fuel).logic_acc =
      (g.logic_acc + dt) -
        (ticksRun fuel (g.logic_acc + dt) (1 / g.current_fps) : ℚ) * (1 / g.current_fps) := by
  unfold Game.play_frame
  dsimp only
  rw [Game.drainAux_acc]

set_option maxRecDepth 100000 in
/-- C5 counterexample to the claim as stated: from `cg5` (tick rate 10,
accumulated time 0.195) the first tick eats and raises the rate to 11.  If
the loop recomputed the step each iteration (the spec-modelled
`play_frame_spec`), the remaining 0.095 would exceed the new step `1/11`
and a second tick would run, moving the head to `(7, 5)`.  The source's
loop (`play_frame`) keeps the entry step `1/10` and stops after one tick,
head `(6, 5)` — the two semantics differ on this input. -/
theorem C5_counterexample :
    (cg5.play_frame (39/200) rngs5 3).snake.head = ((6 : Int), (5 : Int)) ∧
    (cg5.play_frame_spec (39/200) rngs5 3).snake.head = ((7 : Int), (5 : Int)) ∧
    (cg5.play_frame (39/200) rngs5 3).logic_acc ≠
      (cg5.play_frame_spec (39/200) rngs5 3).logic_acc := by
  decide

/-- `spawn_food` keeps "the food is normal" whenever the call is forced
normal or some food is already present (the gold branch needs an EMPTY
slot). -/
lemma Game.spawn_food_foodNormal (g : Game) (b : Bool) (r : SpawnRng) (t : ℚ)
    (h : foodNormal g) (hs : g.food.isSome = true ∨ b = true) :
    foodNormal (g.spawn_food b r t) := by
  unfold Game.spawn_food
  dsimp only
  split
  · exact h
  · split
    · rename_i hc
      rcases hs with hs | hs
      · rw [hc.2.2] at hs
        exact absurd hs (by simp)
      · rw [hs] at hc
        exact absurd hc.1 (by simp)
    · intro f hf
      exact (Option.some.inj hf) ▸ rfl

/-- An eat can only be recorded when a food exists. -/
lemma Game.eat_check_isSome (g : Game) (n : Vec2) :
    (g.eat_check n).isSome = true → g.food.isSome = true := by
  unfold Game.eat_check
  cases g.food with
  | some f => intro _; rfl
  | none => intro hk; exact absurd hk (by simp)

/-- The food bookkeeping of a tick keeps "the food is normal", because the
non-forced spawn only runs right after an eat, while the eaten food still
occupies the slot. -/
lemma Game.food_update_foodNormal (g : Game) (i : TickIn) (k : Option String)
    (h : foodNormal g) (hk : k.isSome = true → g.food.isSome = true) :
    foodNormal (g.food_update i k) := by
  unfold Game.food_update
  dsimp only
  split
  · rename_i hks
    have hgs : g.food.isSome = true := hk hks
    split
    · have hga : foodNormal (g.spawn_food false i.r1 i.now) :=
        Game.spawn_food_foodNormal g false i.r1 i.now h (Or.inl hgs)
      split
      · rename_i f hf
        split
        · rename_i hgold
          have := hga f hf
          rw [this] at hgold
          exact absurd hgold (by simp)
        · exact Game.spawn_food_foodNormal _ true i.r2 i.now hga (Or.inr rfl)
      · exact Game.spawn_food_foodNormal _ true i.r2 i.now hga (Or.inr rfl)
    · exact Game.spawn_food_foodNormal g true i.r1 i.now h (Or.inr rfl)
  · split
    · split
      · exact Game.spawn_food_foodNormal g true i.r1 i.now h (Or.inr rfl)
      · exact h
    · exact h

/-- The core tick keeps "the food is normal". -/
lemma Game.step_core_foodNormal (g : Game) (i : TickIn) (n : Vec2)
    (h : foodNormal g) : foodNormal (g.step_core i n) := by
  by_cases hh : (g.moved_snake n).hits_self = true
  · rw [Game.step_core_hits g i n hh]
    exact fun f hf => h f hf
  · unfold Game.step_core
    rw [if_neg hh]
    dsimp only
    obtain ⟨b, rec, hrec⟩ := Game.record_update_shape _
    rw [hrec]
    intro f hf
    exact Game.food_update_foodNormal
      { g with snake := g.moved_snake n, score := g.new_score n } i (g.eat_check n)
      (fun f' hf' => h f' hf') (fun hks => Game.eat_check_isSome g n hks) f hf

/-- A whole tick keeps "the food is normal". -/
lemma Game.step_logic_foodNormal (g : Game) (i : TickIn)
    (h : foodNormal g) : foodNormal (g.step_logic i) := by
  by_cases hw : g.wrap_on = true
  · rw [Game.step_logic_wrap_eq g i hw]
    exact Game.step_core_foodNormal g i _ h
  · have hw' : g.wrap_on = false := by simpa using hw
    by_cases hin : (g.snake.next_head.1 < 0 ∨ g.snake.next_head.1 ≥ GRID_W ∨
                    g.snake.next_head.2 < 0 ∨ g.snake.next_head.2 ≥ GRID_H)
    · rw [Game.step_logic_wall_eq g i hw' hin]
      exact fun f hf => h f hf
    · rw [Game.step_logic_nowrap_eq g i hw' hin]
      exact Game.step_core_foodNormal g i _ h

/-- A run reset always produces a normal (or no) food: the initial spawn is
forced normal. -/
lemma Game.reset_run_foodNormal (g : Game) (r : SpawnRng) :
    foodNormal (g.reset_run r) := by
  unfold Game.reset_run
  dsimp only
  intro f hf
  exact Game.spawn_food_foodNormal _ true r 0
    (fun f' hf' => Option.noConfusion hf') (Or.inr rfl) f hf

/-- Every input or timing event keeps "the food is normal". -/
lemma Game.applyEvent_foodNormal (g : Game) (e : Event)
    (h : foodNormal g) : foodNormal (g.applyEvent e) := by
  cases e with
  | tick i =>
      simp only [Game.applyEvent]
      split
      · exact Game.step_logic_foodNormal g i h
      · exact h
  | turnKey d =>
      simp only [Game.applyEvent]
      split
      · exact fun f hf => h f hf
      · exact h
  | restartKey r =>
      simp only [Game.applyEvent]
      split
      · exact Game.reset_run_foodNormal g r
      · split
        · exact fun f hf => Game.reset_run_foodNormal g r f hf
        · exact h
  | escape =>
      simp only [Game.applyEvent]
      split
      · exact fun f hf => h f hf
      · split
        · exact fun f hf => h f hf
        · exact h
  | pauseKey =>
      simp only [Game.applyEvent]
      split
      · exact fun f hf => h f hf
      · split
        · exact fun f hf => h f hf
        · exact h
  | menuStart r =>
      simp only [Game.applyEvent]
      split
      · exact fun f hf => Game.reset_run_foodNormal g r f hf
      · exact h
  | menuMode fwd =>
      simp only [Game.applyEvent]
      split
      · exact fun f hf => h f hf
      · exact h
  | menuWrap fwd =>
      simp only [Game.applyEvent]
      split
      · exact fun f hf => h f hf
      · exact h

/-- Event sequences keep "the food is normal". -/
lemma Game.runEvents_foodNormal (events : List Event) :
    ∀ g : Game, foodNormal g → foodNormal (g.runEvents events) := by
  induction events with
  | nil => exact fun g h => h
  | cons e es ih =>
      intro g h
      exact ih _ (Game.applyEvent_foodNormal g e h)

/-- C3: in every reachable state of the game — any sequence of ticks, key
presses, restarts and menu mode/wrap changes from process start — the
current food (when one exists) is Normal: the gold branch of `spawn_food`
requires an empty food slot, but the only non-forced spawn happens right
after an eat with the just-eaten food still stored, so Gold food is never
produced. -/
theorem C3_gold_unreachable (mode : String) (wrap : Bool)
    (records : String → Option Int) (r : SpawnRng) (events : List Event) (f : Food)
    (hf : ((Game.init mode wrap records r).runEvents events).food = some f) :
    f.kind = "normal" := by
  refine Game.runEvents_foodNormal events _ ?_ f hf
  unfold Game.init
  dsimp only
  exact Game.reset_run_foodNormal _ r

set_option maxRecDepth 100000 in
/-- C3 witness: a concrete session (start a run from the menu, then one
tick) ends with a food, and the theorem reports it Normal. -/
theorem C3_witness :
    (⟨((0 : Int), (1 : Int)), "normal", 0⟩ : Food).kind = "normal" :=
  C3_gold_unreachable "normal" false emptyRecords ⟨0, 0⟩
    [Event.menuStart ⟨1, 1⟩, Event.tick wi] ⟨((0 : Int), (1 : Int)), "normal", 0⟩
    (by decide)

/-- The live record update: under the invariant `best ≥ records[key]`, it
keeps the invariant and never decreases any records entry (an entry is only
replaced by the strictly larger current score). -/
lemma Game.record_update_bestInv (g : Game) (h : bestInv g) :
    bestInv g.record_update ∧ ∀ k, recordsVal g k ≤ recordsVal g.record_update k := by
  rcases Game.record_update_cases g with ⟨hgt, heq⟩ | ⟨hle, heq⟩
  · rw [heq]
    constructor
    · unfold bestInv recordsVal
      dsimp only
      rw [if_pos rfl]
      simp
    · intro k
      unfold recordsVal
      dsimp only
      by_cases hkk : k = key_for_record g.mode g.wrap_on
      · rw [if_pos hkk]
        simp only [Option.getD_some]
        calc (g.records k).getD 0 ≤ g.best := by rw [hkk]; exact h
          _ ≤ g.score := le_of_lt hgt
      · rw [if_neg hkk]
  · rw [heq]
    exact ⟨h, fun k => le_refl _⟩

/-- The core tick keeps the best/records invariant and records monotone. -/
lemma Game.step_core_bestInv (g : Game) (i : TickIn) (n : Vec2) (h : bestInv g) :
    bestInv (g.step_core i n) ∧ ∀ k, recordsVal g k ≤ recordsVal (g.step_core i n) k := by
  by_cases hh : (g.moved_snake n).hits_self = true
  · rw [Game.step_core_hits g i n hh]
    exact ⟨h, fun k => le_refl _⟩
  · unfold Game.step_core
    rw [if_neg hh]
    dsimp only
    obtain ⟨fd, hfd⟩ := Game.food_update_shape
      { g with snake := g.moved_snake n, score := g.new_score n } i (g.eat_check n)
    rw [hfd]
    exact Game.record_update_bestInv _ h

/-- A whole tick keeps the best/records invariant and records monotone. -/
lemma Game.step_logic_bestInv (g : Game) (i : TickIn) (h : bestInv g) :
    bestInv (g.step_logic i) ∧ ∀ k, recordsVal g k ≤ recordsVal (g.step_logic i) k := by
  by_cases hw : g.wrap_on = true
  · rw [Game.step_logic_wrap_eq g i hw]
    exact Game.step_core_bestInv g i _ h
  · have hw' : g.wrap_on = false := by simpa using hw
    by_cases hin : (g.snake.next_head.1 < 0 ∨ g.snake.next_head.1 ≥ GRID_W ∨
                    g.snake.next_head.2 < 0 ∨ g.snake.next_head.2 ≥ GRID_H)
    · rw [Game.step_logic_wall_eq g i hw' hin]
      exact ⟨h, fun k => le_refl _⟩
    · rw [Game.step_logic_nowrap_eq g i hw' hin]
      exact Game.step_core_bestInv g i _ h

/-- A run reset reloads `best` from the records table (so the invariant
holds with equality) and leaves the table untouched. -/
lemma Game.reset_run_bestInv (g : Game) (r : SpawnRng) :
    bestInv (g.reset_run r) ∧ ∀ k, recordsVal g k ≤ recordsVal (g.reset_run r) k := by
  obtain ⟨fd, hsh⟩ := Game.reset_run_shape g r
  rw [hsh]
  constructor
  · unfold bestInv recordsVal
    dsimp only
    exact le_refl _
  · exact fun k => le_refl _

/-- A menu mode change reloads `best` for the new key and leaves the table
untouched. -/
lemma Game.menu_change_mode_bestInv (g : Game) (fwd : Bool) :
    bestInv (g.menu_change_mode fwd) ∧
      ∀ k, recordsVal g k ≤ recordsVal (g.menu_change_mode fwd) k := by
  unfold Game.menu_change_mode
  dsimp only
  refine ⟨?_, fun k => le_refl _⟩
  unfold bestInv recordsVal
  dsimp only
  exact le_refl _

/-- A menu wrap change reloads `best` for the new key and leaves the table
untouched. -/
lemma Game.menu_change_wrap_bestInv (g : Game) (fwd : Bool) :
    bestInv (g.menu_change_wrap fwd) ∧
      ∀ k, recordsVal g k ≤ recordsVal (g.menu_change_wrap fwd) k := by
  unfold Game.menu_change_wrap
  dsimp only
  refine ⟨?_, fun k => le_refl _⟩
  unfold bestInv recordsVal
  dsimp only
  exact le_refl _

/-- Every input or timing event keeps the best/records invariant and never
decreases a records entry. -/
lemma Game.applyEvent_bestInv (g : Game) (e : Event) (h : bestInv g) :
    bestInv (g.applyEvent e) ∧ ∀ k, recordsVal g k ≤ recordsVal (g.applyEvent e) k := by
  cases e with
  | tick i =>
      simp only [Game.applyEvent]
      split
      · exact Game.step_logic_bestInv g i h
      · exact ⟨h, fun k => le_refl _⟩
  | turnKey d =>
      simp only [Game.applyEvent]
      split
      · exact ⟨h, fun k => le_refl _⟩
      · exact ⟨h, fun k => le_refl _⟩
  | restartKey r =>
      simp only [Game.applyEvent]
      split
      · exact Game.reset_run_bestInv g r
      · split
        · exact Game.reset_run_bestInv g r
        · exact ⟨h, fun k => le_refl _⟩
  | escape =>
      simp only [Game.applyEvent]
      split
      · exact ⟨h, fun k => le_refl _⟩
      · split
        · exact ⟨h, fun k => le_refl _⟩
        · exact ⟨h, fun k => le_refl _⟩
  | pauseKey =>
      simp only [Game.applyEvent]
      split
      · exact ⟨h, fun k => le_refl _⟩
      · split
        · exact ⟨h, fun k => le_refl _⟩
        · exact ⟨h, fun k => le_refl _⟩
  | menuStart r =>
      simp only [Game.applyEvent]
      split
      · exact Game.reset_run_bestInv g r
      · exact ⟨h, fun k => le_refl _⟩
  | menuMode fwd =>
      simp only [Game.applyEvent]
      split
      · exact Game.menu_change_mode_bestInv g fwd
      · exact ⟨h, fun k => le_refl _⟩
  | menuWrap fwd =>
      simp only [Game.applyEvent]
      split
      · exact Game.menu_change_wrap_bestInv g fwd
      · exact ⟨h, fun k => le_refl _⟩

/-- Event sequences keep the best/records invariant and never decrease a
records entry. -/
lemma Game.runEvents_bestInv (events : List Event) :
    ∀ g : Game, bestInv g →
      bestInv (g.runEvents events) ∧
        ∀ k, recordsVal g k ≤ recordsVal (g.runEvents events) k := by
  induction events with
  | nil => exact fun g h => ⟨h, fun k => le_refl _⟩
  | cons e es ih =>
      intro g h
      obtain ⟨h1, hm1⟩ := Game.applyEvent_bestInv g e h
      obtain ⟨h2, hm2⟩ := ih _ h1
      exact ⟨h2, fun k => le_trans (hm1 k) (hm2 k)⟩

/-- The process starts with the invariant (the constructor runs
`reset_run`, which loads `best` from the records table). -/
lemma Game.init_bestInv (mode : String) (wrap : Bool) (records : String → Option Int)
    (r : SpawnRng) : bestInv (Game.init mode wrap records r) := by
  unfold Game.init
  dsimp only
  exact (Game.reset_run_bestInv _ r).1

/-- C9: for every (mode, wrap) key, the recorded best score never decreases
between any two points of a process run — across any sequence of ticks, run
resets, restarts, and menu mode/wrap changes: a records entry is only ever
replaced by the strictly larger score just achieved under that key. -/
theorem C9_records_monotone (mode : String) (wrap : Bool)
    (records : String → Option Int) (r : SpawnRng)
    (past future : List Event) (k : String) :
    recordsVal ((Game.init mode wrap records r).runEvents past) k ≤
      recordsVal (((Game.init mode wrap records r).runEvents past).runEvents future) k := by
  have h0 : bestInv (Game.init mode wrap records r) :=
    Game.init_bestInv mode wrap records r
  have h1 := Game.runEvents_bestInv past _ h0
  exact (Game.runEvents_bestInv future _ h1.1).2 k

end SnakeGame
